import Mathlib

/-!
# prometheus-inception-exporter: the collect / scrape cycle

A shallow embedding of `prometheus_inception_exporter.go`.

* The package-level variables `metrics_namespace`, `target_count` and
  `target_states` become the fields of `State`, passed explicitly.
* A `prometheus.Gauge` is a record of its options and its current value.  The
  only values the program ever stores are the integer constants `0`, `1`, `2`
  and `float64(count)`, so the value is a natural number.
* The Go map `map[string]prometheus.Gauge` is an association list; the order of
  the list carries no meaning.  Go leaves the iteration order of a map
  unspecified and free to change from one `range` to the next, so the order in
  which `Collect` visits the gauges is an input too (`RangeOrder`), and
  statements about what `Collect` emits are phrased up to permutation.
* The tally `count` is a Go `int` incremented at most once per element of the
  decoded slice, far below the range of `int` and of the exact integers of
  `float64`, so it is a natural number without wrap-around.
* The four library calls of `scrape` that can fail (`http.NewRequest`,
  `client.Do`, `ioutil.ReadAll`, `json.Unmarshal`) are inputs, collected in
  `World`.
-/

namespace PrometheusInceptionExporter

/-! ## Constants and data model -/

def target_down : Nat := 0
def target_up : Nat := 1
def target_disappear : Nat := 2

/-- Label sets (`prometheus.Labels`, `DiscoveredLabels`): string keyed maps. -/
abbrev Labels := List (String × String)

/-- Indexing a Go `map[string]string`: the zero value `""` for a missing key. -/
def Labels.index : Labels → String → String
  | [], _ => ""
  | (k, v) :: rest, key => if k = key then v else Labels.index rest key

/-- A gauge: the `GaugeOpts` it was built from and its current value. -/
structure Gauge where
  Namespace : String
  Name : String
  Help : String
  ConstLabels : Labels
  value : Nat
deriving DecidableEq

/-- The method `Gauge.Set`. -/
def Gauge.Set (g : Gauge) (v : Nat) : Gauge := { g with value := v }

/-- The function `newGauge`: `prometheus.NewGauge` returns a gauge whose value is `0`. -/
def newGauge (metrics_namespace metricName docString : String) (constLabels : Labels) : Gauge :=
  { Namespace := metrics_namespace
    Name := metricName
    Help := docString
    ConstLabels := constLabels
    value := 0 }

/-- The fields of `v1.Target` that the exporter reads. -/
structure Target where
  DiscoveredLabels : Labels
  ScrapeURL : String
  Health : String
deriving DecidableEq

/-- The field of `v1.TargetDiscovery` that the exporter reads. -/
structure TargetDiscovery where
  ActiveTargets : List Target
deriving DecidableEq

structure prometheusResponse where
  Status : String
  Data : TargetDiscovery
  ErrorType : String
  Error : String
deriving DecidableEq

/-- The package-level variables. -/
structure State where
  metrics_namespace : String
  target_count : Gauge
  target_states : List (String × Gauge)
deriving DecidableEq

/-! ## Go map operations on the association list -/

/-- The lookup `m[k]` with its `ok` flag. -/
def mapGet : List (String × Gauge) → String → Option Gauge
  | [], _ => none
  | (k, g) :: rest, key => if k = key then some g else mapGet rest key

/-- The assignment `m[k] = g`: replaces the value of an existing key, adds a new key otherwise. -/
def mapAssign (m : List (String × Gauge)) (key : String) (g : Gauge) : List (String × Gauge) :=
  match mapGet m key with
  | some _ => m.map (fun p => (p.1, if p.1 = key then g else p.2))
  | none => m ++ [(key, g)]

/-- The call `m[k].Set(v)` on the gauge stored under `k`. -/
def mapSet (m : List (String × Gauge)) (key : String) (v : Nat) : List (String × Gauge) :=
  m.map (fun p => (p.1, if p.1 = key then p.2.Set v else p.2))

/-! ## The outside world of one poll -/

/-- The order in which one `range` over the map visits its gauges: any rearrangement. -/
structure RangeOrder where
  visit : List Gauge → List Gauge
  perm : ∀ l, List.Perm (visit l) l

/-- The outcomes of the library calls made by one `scrape`, and the order of the `range` over
`target_states` in the `Collect` that called it. -/
structure World where
  newRequest : Except String Unit
  clientDo : Except String Unit
  readAll : Except String String
  unmarshal : String → Except String prometheusResponse
  rangeOrder : RangeOrder

/-! ## The program -/

/-- The body of the loop over `pr.Data.ActiveTargets` in `scrape`. -/
def scrapeTarget (metrics_namespace : String) (acc : List (String × Gauge) × Nat) (target : Target) :
    List (String × Gauge) × Nat :=
  let states :=
    match mapGet acc.1 target.ScrapeURL with
    | some _ => acc.1
    | none =>
      mapAssign acc.1 target.ScrapeURL
        (newGauge metrics_namespace "target_state" "Prometheus targets state"
          [("job_name", Labels.index target.DiscoveredLabels "job"),
           ("scrape_url", target.ScrapeURL)])
  if target.Health = "up" then
    (mapSet states target.ScrapeURL target_up, acc.2 + 1)
  else if target.Health = "down" ∨ target.Health = "unknown" then
    (mapSet states target.ScrapeURL target_down, acc.2 + 1)
  else
    (states, acc.2)

/-- The method `Exporter.scrape`: the returned error (`none` for `nil`) and the new state. -/
def scrape (w : World) (s : State) : Option String × State :=
  match w.newRequest with
  | .error err => (some ("Can\x27t scrape Prometheus api: " ++ err), s)
  | .ok _ =>
    match w.clientDo with
    | .error err => (some ("Can\x27t scrape Prometheus api: " ++ err), s)
    | .ok _ =>
      match w.readAll with
      | .error err => (some ("Can\x27t scrape Prometheus api: " ++ err), s)
      | .ok body =>
        match w.unmarshal body with
        | .error err => (some ("Can\x27t scrape Prometheus api: " ++ err), s)
        | .ok pr =>
          let reset := s.target_states.map (fun p => (p.1, p.2.Set target_disappear))
          let r := pr.Data.ActiveTargets.foldl (scrapeTarget s.metrics_namespace) (reset, 0)
          (none, { s with target_states := r.1, target_count := s.target_count.Set r.2 })

/-- The method `Exporter.Collect`: the metrics sent on the channel, in order, and the new state.
The `range` over `target_states` visits the gauges in the order the world chooses. -/
def Collect (w : World) (s : State) : List Gauge × State :=
  match scrape w s with
  | (some _, s1) =>
    let s2 := { s1 with target_count := s1.target_count.Set 0 }
    ([s2.target_count], s2)
  | (none, s1) => (w.rangeOrder.visit (s1.target_states.map Prod.snd) ++ [s1.target_count], s1)

/-- The state after package initialisation and `init`. -/
def init : State :=
  { metrics_namespace := "prometheus_inception"
    target_count :=
      (newGauge "prometheus_inception" "target_count" "Number of targets on Prometheus instance" []).Set 0
    target_states := [] }

/-- The assignment `metrics_namespace = *namespace` in `main`. -/
def setNamespace (namespaceFlag : String) (s : State) : State :=
  { s with metrics_namespace := namespaceFlag }

/-- A sequence of collects, one per metrics request. -/
def collects (ws : List World) (s : State) : State :=
  ws.foldl (fun st w => (Collect w st).2) s

/-! ## Specification-side vocabulary -/

/-- A health string that `scrape` acts on. -/
def recognised (health : String) : Bool :=
  decide (health = "up" ∨ health = "down" ∨ health = "unknown")

/-- The gauge that `scrape` creates for a target whose scrape URL is new. -/
def stateGauge (metrics_namespace : String) (target : Target) : Gauge :=
  newGauge metrics_namespace "target_state" "Prometheus targets state"
    [("job_name", Labels.index target.DiscoveredLabels "job"), ("scrape_url", target.ScrapeURL)]

/-- The first element of a target list with the given scrape URL. -/
def firstWith (url : String) (targets : List Target) : Option Target :=
  targets.find? (fun t => decide (t.ScrapeURL = url))

/-- The last element of a target list with the given scrape URL and a recognised health. -/
def lastRecognised (url : String) (targets : List Target) : Option Target :=
  (targets.filter (fun t => decide (t.ScrapeURL = url) && recognised t.Health)).getLast?

/-- The state value that `scrape` stores for a recognised health. -/
def healthValue (health : String) : Nat :=
  if health = "up" then target_up else target_down

/-- The registry after the membership test and the conditional creation of a gauge. -/
def ensured (metrics_namespace : String) (m : List (String × Gauge)) (target : Target) :
    List (String × Gauge) :=
  match mapGet m target.ScrapeURL with
  | some _ => m
  | none => m ++ [(target.ScrapeURL, stateGauge metrics_namespace target)]

/-- The gauge stored for an identity before this poll decides its value: the one already in the
registry, or the one created from the first target of the list with that scrape URL. -/
def baseGauge (ns : String) (m : List (String × Gauge)) (targets : List Target) (x : String) :
    Option Gauge :=
  match mapGet m x with
  | some g => some g
  | none => (firstWith x targets).map (stateGauge ns)

/-- The effect of a target list on the gauge of an identity. -/
def decided (x : String) (targets : List Target) (g : Gauge) : Gauge :=
  match lastRecognised x targets with
  | none => g
  | some t => g.Set (healthValue t.Health)

/-- The part of `scrape` before the registry is touched: request, round trip, body, decoding. -/
def World.fetch (w : World) : Except String prometheusResponse :=
  match w.newRequest with
  | .error err => .error err
  | .ok _ =>
    match w.clientDo with
    | .error err => .error err
    | .ok _ =>
      match w.readAll with
      | .error err => .error err
      | .ok body => w.unmarshal body

/-- The active targets that one poll processes: those of the decoded response, none on failure. -/
def targetsOf (w : World) : List Target :=
  match w.fetch with
  | .ok pr => pr.Data.ActiveTargets
  | .error _ => []

/-- All targets processed by a sequence of polls, in processing order. -/
def processed : List World → List Target
  | [] => []
  | w :: ws => targetsOf w ++ processed ws

/-- The decoded envelope of a successful upstream answer with the given active targets. -/
def answer (targets : List Target) : prometheusResponse :=
  { Status := "success", Data := { ActiveTargets := targets }, ErrorType := "", Error := "" }

/-- The range that visits the gauges in the order of the list. -/
def listOrder : RangeOrder :=
  { visit := fun l => l
    perm := fun l => List.Perm.refl l }

/-- The range that visits the gauges in the opposite order. -/
def reverseOrder : RangeOrder :=
  { visit := fun l => l.reverse
    perm := fun l => List.reverse_perm l }

/-- A world whose poll succeeds with the given active targets. -/
def respond (targets : List Target) : World :=
  { newRequest := .ok ()
    clientDo := .ok ()
    readAll := .ok "body"
    unmarshal := fun _ => .ok (answer targets)
    rangeOrder := listOrder }

/-- A world whose poll succeeds with the given active targets inside an envelope that reports an
upstream warning, and whose range runs in the opposite order. -/
def respondAgain (targets : List Target) : World :=
  { newRequest := .ok ()
    clientDo := .ok ()
    readAll := .ok "body again"
    unmarshal := fun _ =>
      .ok { Status := "success", Data := { ActiveTargets := targets }, ErrorType := "",
            Error := "slow discovery" }
    rangeOrder := reverseOrder }

/-- A world in which the upstream cannot be reached. -/
def upstreamDown : World :=
  { newRequest := .ok ()
    clientDo := .error "connection refused"
    readAll := .ok ""
    unmarshal := fun _ => .error "unexpected end of JSON input"
    rangeOrder := listOrder }

/-- A world in which the upstream answers with a body that is not the envelope. -/
def malformedBody : World :=
  { newRequest := .ok ()
    clientDo := .ok ()
    readAll := .ok "<html>"
    unmarshal := fun _ => .error "invalid character"
    rangeOrder := reverseOrder }

/-- The target of the scenario in the specification. -/
def nodeTarget : Target :=
  { DiscoveredLabels := [("job", "node")], ScrapeURL := "http://a:9100/metrics", Health := "up" }

/-- The same scrape URL reported down, under another job. -/
def nodeDown : Target :=
  { DiscoveredLabels := [("job", "blackbox")], ScrapeURL := "http://a:9100/metrics", Health := "down" }

/-- The same scrape URL with a health string that `scrape` does not act on. -/
def nodeOdd : Target :=
  { DiscoveredLabels := [("job", "node")], ScrapeURL := "http://a:9100/metrics", Health := "starting" }

/-- A second target. -/
def dbTarget : Target :=
  { DiscoveredLabels := [("job", "db")], ScrapeURL := "http://b:9187/metrics", Health := "unknown" }

/-- A third target. -/
def cacheTarget : Target :=
  { DiscoveredLabels := [("job", "cache")], ScrapeURL := "http://c:9150/metrics", Health := "up" }

/-- The state after one successful collect of the scenario target. -/
def seenState : State := (Collect (respond [nodeTarget]) init).2

/-! ## Lemmas on the map operations and the loop -/

theorem Set_Set (g : Gauge) (a b : Nat) : (g.Set a).Set b = g.Set b := rfl

theorem Set_value (g : Gauge) (a : Nat) : (g.Set a).value = a := rfl

theorem mapGet_append (m m' : List (String × Gauge)) (x : String) :
    mapGet (m ++ m') x = match mapGet m x with
      | some g => some g
      | none => mapGet m' x := by
  induction m with
  | nil => simp [mapGet]
  | cons p m ih =>
    obtain ⟨k, g⟩ := p
    by_cases h : k = x
    · simp [mapGet, h]
    · simp [mapGet, h, ih]

theorem mapGet_map (m : List (String × Gauge)) (f : Gauge → Gauge) (x : String) :
    mapGet (m.map (fun p => (p.1, f p.2))) x = (mapGet m x).map f := by
  induction m with
  | nil => simp [mapGet]
  | cons p m ih =>
    obtain ⟨k, g⟩ := p
    by_cases h : k = x
    · simp [mapGet, h]
    · simp [mapGet, h, ih]

theorem mapGet_mapSet (m : List (String × Gauge)) (key : String) (v : Nat) (x : String) :
    mapGet (mapSet m key v) x =
      if x = key then (mapGet m x).map (fun g => g.Set v) else mapGet m x := by
  induction m with
  | nil => simp [mapGet, mapSet]
  | cons p m ih =>
    obtain ⟨k, g⟩ := p
    unfold mapSet at ih ⊢
    by_cases h : k = x
    · subst h
      by_cases hk : k = key
      · simp [mapGet, hk]
      · simp [mapGet, hk]
    · by_cases hx : x = key
      · subst hx
        simp [mapGet, h] at ih ⊢
        exact ih
      · simp [mapGet, h, hx] at ih ⊢
        exact ih

theorem mapAssign_of_none (m : List (String × Gauge)) (key : String) (g : Gauge)
    (h : mapGet m key = none) : mapAssign m key g = m ++ [(key, g)] := by
  simp [mapAssign, h]

theorem mapGet_ensured (ns : String) (m : List (String × Gauge)) (t : Target) (x : String) :
    mapGet (ensured ns m t) x = match mapGet m x with
      | some g => some g
      | none => if t.ScrapeURL = x then some (stateGauge ns t) else none := by
  unfold ensured
  cases hm : mapGet m t.ScrapeURL with
  | some g0 =>
    cases hx : mapGet m x with
    | some g => simp
    | none =>
      have : t.ScrapeURL ≠ x := by
        intro h; rw [h] at hm; rw [hm] at hx; cases hx
      simp [this]
  | none =>
    simp [mapGet_append, mapGet]

theorem scrapeTarget_fst (ns : String) (acc : List (String × Gauge) × Nat) (t : Target) :
    (scrapeTarget ns acc t).1 =
      if recognised t.Health then
        mapSet (ensured ns acc.1 t) t.ScrapeURL (healthValue t.Health)
      else ensured ns acc.1 t := by
  have he : (match mapGet acc.1 t.ScrapeURL with
      | some _ => acc.1
      | none => mapAssign acc.1 t.ScrapeURL
          (newGauge ns "target_state" "Prometheus targets state"
            [("job_name", Labels.index t.DiscoveredLabels "job"), ("scrape_url", t.ScrapeURL)]))
      = ensured ns acc.1 t := by
    unfold ensured
    cases hm : mapGet acc.1 t.ScrapeURL with
    | some g => rfl
    | none => simp [mapAssign_of_none _ _ _ hm, stateGauge]
  unfold scrapeTarget
  simp only [he]
  by_cases hu : t.Health = "up"
  · simp [hu, recognised, healthValue]
  · by_cases hd : t.Health = "down" ∨ t.Health = "unknown"
    · have hr : recognised t.Health = true := by
        simp only [recognised, decide_eq_true_eq]; exact Or.inr hd
      simp [hu, hd, hr, healthValue]
    · have hr : recognised t.Health = false := by
        simp only [recognised, decide_eq_false_iff_not]
        rintro (h | h)
        · exact hu h
        · exact hd h
      simp [hu, hd, hr]

theorem scrapeTarget_snd (ns : String) (acc : List (String × Gauge) × Nat) (t : Target) :
    (scrapeTarget ns acc t).2 = acc.2 + (if recognised t.Health then 1 else 0) := by
  unfold scrapeTarget
  by_cases hu : t.Health = "up"
  · simp [hu, recognised]
  · by_cases hd : t.Health = "down" ∨ t.Health = "unknown"
    · have hr : recognised t.Health = true := by
        simp only [recognised, decide_eq_true_eq]; exact Or.inr hd
      simp [hu, hd, hr]
    · have hr : recognised t.Health = false := by
        simp only [recognised, decide_eq_false_iff_not]
        rintro (h | h)
        · exact hu h
        · exact hd h
      simp [hu, hd, hr]

theorem mapGet_scrapeTarget (ns : String) (acc : List (String × Gauge) × Nat) (t : Target)
    (x : String) :
    mapGet (scrapeTarget ns acc t).1 x =
      if t.ScrapeURL = x then
        some (if recognised t.Health
          then ((mapGet acc.1 x).getD (stateGauge ns t)).Set (healthValue t.Health)
          else (mapGet acc.1 x).getD (stateGauge ns t))
      else mapGet acc.1 x := by
  rw [scrapeTarget_fst]
  by_cases hx : t.ScrapeURL = x
  · subst hx
    cases hr : recognised t.Health <;> cases hm : mapGet acc.1 t.ScrapeURL <;>
      simp [mapGet_mapSet, mapGet_ensured, hm]
  · have hx2 : ¬ x = t.ScrapeURL := fun h => hx h.symm
    cases hr : recognised t.Health <;> cases hm : mapGet acc.1 x <;>
      simp [mapGet_mapSet, mapGet_ensured, hm, hx, hx2]

theorem firstWith_cons (x : String) (t : Target) (l : List Target) :
    firstWith x (t :: l) = if t.ScrapeURL = x then some t else firstWith x l := by
  unfold firstWith
  by_cases h : t.ScrapeURL = x <;> simp [List.find?, h]

theorem lastRecognised_cons (x : String) (t : Target) (l : List Target) :
    lastRecognised x (t :: l) = match lastRecognised x l with
      | some u => some u
      | none => if t.ScrapeURL = x ∧ recognised t.Health = true then some t else none := by
  unfold lastRecognised
  by_cases h : t.ScrapeURL = x ∧ recognised t.Health = true
  · have hp : (decide (t.ScrapeURL = x) && recognised t.Health) = true := by simp [h.1, h.2]
    simp only [List.filter_cons, hp, if_true, List.getLast?_cons]
    generalize (List.filter (fun t => decide (t.ScrapeURL = x) && recognised t.Health) l).getLast?
      = o
    cases o <;> simp [h]
  · have hp : (decide (t.ScrapeURL = x) && recognised t.Health) = false := by
      rw [Bool.eq_false_iff]
      simpa using h
    simp only [List.filter_cons, hp, Bool.false_eq_true, if_false]
    generalize (List.filter (fun t => decide (t.ScrapeURL = x) && recognised t.Health) l).getLast?
      = o
    cases o <;> simp [h]

theorem mapGet_foldl (ns : String) (l : List Target) (acc : List (String × Gauge) × Nat)
    (x : String) :
    mapGet (l.foldl (scrapeTarget ns) acc).1 x = (baseGauge ns acc.1 l x).map (decided x l) := by
  induction l generalizing acc with
  | nil =>
    cases hm : mapGet acc.1 x <;> simp [baseGauge, decided, lastRecognised, firstWith, hm]
  | cons t l ih =>
    rw [List.foldl_cons, ih]
    unfold baseGauge decided
    rw [mapGet_scrapeTarget, firstWith_cons, lastRecognised_cons]
    by_cases hx : t.ScrapeURL = x
    · subst hx
      cases hr : recognised t.Health <;> cases hm : mapGet acc.1 t.ScrapeURL <;>
        cases hl : lastRecognised t.ScrapeURL l <;> simp [Set_Set]
    · cases hm : mapGet acc.1 x <;> cases hl : lastRecognised x l <;> simp [hx]

theorem snd_foldl (ns : String) (l : List Target) (acc : List (String × Gauge) × Nat) :
    (l.foldl (scrapeTarget ns) acc).2 = acc.2 + l.countP (fun t => recognised t.Health) := by
  induction l generalizing acc with
  | nil => simp
  | cons t l ih =>
    rw [List.foldl_cons, ih, scrapeTarget_snd, List.countP_cons]
    omega


/-! ## Lemmas on `scrape` and `Collect` -/

theorem scrape_of_fetch_ok (w : World) (s : State) (pr : prometheusResponse)
    (h : w.fetch = .ok pr) :
    scrape w s =
      (none,
        { s with
          target_states :=
            (pr.Data.ActiveTargets.foldl (scrapeTarget s.metrics_namespace)
              (s.target_states.map (fun p => (p.1, p.2.Set target_disappear)), 0)).1
          target_count :=
            s.target_count.Set
              (pr.Data.ActiveTargets.foldl (scrapeTarget s.metrics_namespace)
                (s.target_states.map (fun p => (p.1, p.2.Set target_disappear)), 0)).2 }) := by
  unfold World.fetch at h
  unfold scrape
  cases h1 : w.newRequest with
  | error e => simp [h1] at h
  | ok u =>
    cases h2 : w.clientDo with
    | error e => simp [h1, h2] at h
    | ok u2 =>
      cases h3 : w.readAll with
      | error e => simp [h1, h2, h3] at h
      | ok body =>
        simp only [h1, h2, h3] at h
        simp only [h]

theorem scrape_of_fetch_error (w : World) (s : State) (e : String) (h : w.fetch = .error e) :
    scrape w s = (some ("Can\x27t scrape Prometheus api: " ++ e), s) := by
  unfold World.fetch at h
  unfold scrape
  cases h1 : w.newRequest with
  | error e1 =>
    simp only [h1] at h
    cases h
    rfl
  | ok u =>
    cases h2 : w.clientDo with
    | error e2 =>
      simp only [h1, h2] at h
      cases h
      rfl
    | ok u2 =>
      cases h3 : w.readAll with
      | error e3 =>
        simp only [h1, h2, h3] at h
        cases h
        rfl
      | ok body =>
        simp only [h1, h2, h3] at h
        simp only [h]

theorem scrape_fails_iff (w : World) (s : State) :
    (scrape w s).1 ≠ none ↔ ∃ e, w.fetch = .error e := by
  cases hf : w.fetch with
  | error e => simp [scrape_of_fetch_error w s e hf]
  | ok pr => simp [scrape_of_fetch_ok w s pr hf]

theorem fetch_error_iff (w : World) :
    (∃ e, w.fetch = .error e) ↔
      ((∃ e, w.newRequest = .error e) ∨ (∃ e, w.clientDo = .error e) ∨
        (∃ e, w.readAll = .error e) ∨
        (∃ body e, w.readAll = .ok body ∧ w.unmarshal body = .error e)) := by
  unfold World.fetch
  cases h1 : w.newRequest <;> cases h2 : w.clientDo <;> cases h3 : w.readAll <;> simp

theorem Collect_of_fetch_ok (w : World) (s : State) (pr : prometheusResponse)
    (h : w.fetch = .ok pr) :
    Collect w s =
      (w.rangeOrder.visit ((scrape w s).2.target_states.map Prod.snd) ++
          [(scrape w s).2.target_count],
        (scrape w s).2) := by
  unfold Collect
  rw [scrape_of_fetch_ok w s pr h]

theorem Collect_of_fetch_error (w : World) (s : State) (e : String) (h : w.fetch = .error e) :
    Collect w s = ([s.target_count.Set 0], { s with target_count := s.target_count.Set 0 }) := by
  unfold Collect
  rw [scrape_of_fetch_error w s e h]

/-! ## Lemmas on the last recognised occurrence -/

theorem lastRecognised_nil (x : String) : lastRecognised x [] = none := rfl

theorem lastRecognised_append (x : String) (l₁ l₂ : List Target) :
    lastRecognised x (l₁ ++ l₂) = match lastRecognised x l₂ with
      | some u => some u
      | none => lastRecognised x l₁ := by
  induction l₁ with
  | nil =>
    rw [List.nil_append]
    cases lastRecognised x l₂ <;> simp [lastRecognised_nil]
  | cons t l ih =>
    rw [List.cons_append, lastRecognised_cons, ih, lastRecognised_cons]
    cases lastRecognised x l₂ <;> simp

theorem lastRecognised_eq_none (x : String) (l : List Target)
    (h : ∀ u ∈ l, ¬ (u.ScrapeURL = x ∧ recognised u.Health = true)) :
    lastRecognised x l = none := by
  induction l with
  | nil => rfl
  | cons t l ih =>
    rw [lastRecognised_cons, ih (fun u hu => h u (List.mem_cons_of_mem _ hu))]
    simp [h t (List.mem_cons_self _ _)]

theorem lastRecognised_some (x : String) (l : List Target) (u : Target)
    (h : lastRecognised x l = some u) :
    u ∈ l ∧ u.ScrapeURL = x ∧ recognised u.Health = true := by
  induction l with
  | nil => simp [lastRecognised_nil] at h
  | cons t l ih =>
    rw [lastRecognised_cons] at h
    cases hl : lastRecognised x l with
    | some v =>
      rw [hl] at h
      simp only [Option.some.injEq] at h
      subst h
      have := ih hl
      exact ⟨List.mem_cons_of_mem _ this.1, this.2⟩
    | none =>
      rw [hl] at h
      by_cases hc : t.ScrapeURL = x ∧ recognised t.Health = true
      · simp only [hc, and_self, if_true, Option.some.injEq] at h
        subst h
        exact ⟨List.mem_cons_self _ _, hc⟩
      · simp [hc] at h

theorem firstWith_eq_none (x : String) (l : List Target) (h : ∀ u ∈ l, u.ScrapeURL ≠ x) :
    firstWith x l = none := by
  unfold firstWith
  simpa using h

theorem firstWith_some (x : String) (l : List Target) (u : Target) (h : firstWith x l = some u) :
    u ∈ l ∧ u.ScrapeURL = x := by
  unfold firstWith at h
  exact ⟨List.mem_of_find?_eq_some h, by simpa using List.find?_some h⟩

theorem firstWith_isSome (x : String) (l : List Target) (u : Target) (hu : u ∈ l)
    (hx : u.ScrapeURL = x) : ∃ t, firstWith x l = some t := by
  cases h : firstWith x l with
  | some t => exact ⟨t, rfl⟩
  | none =>
    unfold firstWith at h
    simp at h
    exact absurd hx (h u hu)

theorem firstWith_append (x : String) (l₁ l₂ : List Target) :
    firstWith x (l₁ ++ l₂) = match firstWith x l₁ with
      | some u => some u
      | none => firstWith x l₂ := by
  induction l₁ with
  | nil => rfl
  | cons t l ih =>
    rw [List.cons_append, firstWith_cons, firstWith_cons, ih]
    by_cases h : t.ScrapeURL = x <;> simp [h]

/-- The registry lookup after a successful poll. -/
theorem mapGet_scrape (w : World) (s : State) (pr : prometheusResponse) (h : w.fetch = .ok pr)
    (x : String) :
    mapGet (scrape w s).2.target_states x =
      (baseGauge s.metrics_namespace
        (s.target_states.map (fun p => (p.1, p.2.Set target_disappear)))
        pr.Data.ActiveTargets x).map (decided x pr.Data.ActiveTargets) := by
  rw [scrape_of_fetch_ok w s pr h]
  exact mapGet_foldl _ _ _ _

theorem count_scrape (w : World) (s : State) (pr : prometheusResponse) (h : w.fetch = .ok pr) :
    (scrape w s).2.target_count.value =
      pr.Data.ActiveTargets.countP (fun t => recognised t.Health) := by
  rw [scrape_of_fetch_ok w s pr h]
  simp [snd_foldl, Set_value]

theorem recognised_iff (health : String) :
    recognised health = true ↔ (health = "up" ∨ health = "down" ∨ health = "unknown") := by
  simp [recognised]

theorem healthValue_eq (health : String) :
    healthValue health = if health = "up" then target_up else target_down := rfl

theorem count_eq_filter_length (l : List Target) :
    l.countP (fun t => recognised t.Health) =
      (l.filter (fun t =>
        decide (t.Health = "up" ∨ t.Health = "down" ∨ t.Health = "unknown"))).length := by
  rw [List.countP_eq_length_filter]
  rfl

theorem mapGet_reset (m : List (String × Gauge)) (x : String) :
    mapGet (m.map (fun p => (p.1, p.2.Set target_disappear))) x =
      (mapGet m x).map (fun g => g.Set target_disappear) :=
  mapGet_map m (fun g => g.Set target_disappear) x

/-- The value stored for an identity whose last recognised occurrence is known. -/
theorem value_of_lastRecognised (w : World) (s : State) (pr : prometheusResponse)
    (h : w.fetch = .ok pr) (x : String) (u : Target)
    (hl : lastRecognised x pr.Data.ActiveTargets = some u) :
    ∃ g, mapGet (scrape w s).2.target_states x = some g ∧ g.value = healthValue u.Health := by
  rw [mapGet_scrape w s pr h]
  obtain ⟨hu, hx, _⟩ := lastRecognised_some x _ u hl
  obtain ⟨t, ht⟩ := firstWith_isSome x _ u hu hx
  unfold baseGauge decided
  rw [hl, ht]
  cases mapGet (s.target_states.map (fun p => (p.1, p.2.Set target_disappear))) x <;>
    simp [Set_value]

/-- The value stored for an identity that has no recognised occurrence in the list. -/
theorem mapGet_scrape_of_no_recognised (w : World) (s : State) (pr : prometheusResponse)
    (h : w.fetch = .ok pr) (x : String)
    (hx : ∀ t ∈ pr.Data.ActiveTargets, ¬ (t.ScrapeURL = x ∧ recognised t.Health = true)) :
    mapGet (scrape w s).2.target_states x =
      match mapGet s.target_states x with
      | some g => some (g.Set target_disappear)
      | none => (firstWith x pr.Data.ActiveTargets).map (stateGauge s.metrics_namespace) := by
  rw [mapGet_scrape w s pr h]
  unfold baseGauge decided
  rw [lastRecognised_eq_none x _ hx, mapGet_reset]
  cases mapGet s.target_states x <;> cases firstWith x pr.Data.ActiveTargets <;> simp

/-! ## The claims -/

/-- C1: after a successful poll the aggregate count is the number of active targets whose health
is exactly "up", "down" or "unknown"; other health strings contribute nothing, and the count is
the same whatever the state before the poll was. -/
theorem target_count_after_successful_poll (w : World) (s : State) (pr : prometheusResponse)
    (h : w.fetch = .ok pr) :
    (scrape w s).1 = none ∧
    (scrape w s).2.target_count.value =
      (pr.Data.ActiveTargets.filter (fun t =>
        decide (t.Health = "up" ∨ t.Health = "down" ∨ t.Health = "unknown"))).length ∧
    ∀ s' : State, (scrape w s').2.target_count.value = (scrape w s).2.target_count.value := by
  refine ⟨?_, ?_, ?_⟩
  · rw [scrape_of_fetch_ok w s pr h]
  · rw [count_scrape w s pr h, count_eq_filter_length]
  · intro s'
    rw [count_scrape w s pr h, count_scrape w s' pr h]

theorem target_count_after_successful_poll_witness :
    (respond [nodeTarget, dbTarget, nodeOdd, nodeDown]).fetch
        = .ok (answer [nodeTarget, dbTarget, nodeOdd, nodeDown]) ∧
    (scrape (respond [nodeTarget, dbTarget, nodeOdd, nodeDown]) seenState).1 = none ∧
    (scrape (respond [nodeTarget, dbTarget, nodeOdd, nodeDown]) seenState).2.target_count.value
        = 3 :=
  ⟨rfl,
    (target_count_after_successful_poll (respond [nodeTarget, dbTarget, nodeOdd, nodeDown])
      seenState (answer [nodeTarget, dbTarget, nodeOdd, nodeDown]) rfl).1,
    (target_count_after_successful_poll (respond [nodeTarget, dbTarget, nodeOdd, nodeDown])
      seenState (answer [nodeTarget, dbTarget, nodeOdd, nodeDown]) rfl).2.1.trans (by decide)⟩

/-- C2: a poll fails exactly when the request cannot be built, the round trip fails, the body
cannot be read or the body does not decode; a collect whose poll fails leaves the registry as it
was and leaves the aggregate count at 0. -/
theorem failed_poll_keeps_registry (w : World) (s : State) :
    ((scrape w s).1 ≠ none ↔
      ((∃ e, w.newRequest = .error e) ∨ (∃ e, w.clientDo = .error e) ∨
        (∃ e, w.readAll = .error e) ∨
        (∃ body e, w.readAll = .ok body ∧ w.unmarshal body = .error e))) ∧
    ((scrape w s).1 ≠ none →
      (scrape w s).2 = s ∧
      (Collect w s).2.target_states = s.target_states ∧
      (Collect w s).2.target_count.value = 0 ∧
      (Collect w s).2 = { s with target_count := s.target_count.Set 0 }) := by
  refine ⟨(scrape_fails_iff w s).trans (fetch_error_iff w), ?_⟩
  intro hf
  obtain ⟨e, he⟩ := (scrape_fails_iff w s).1 hf
  rw [Collect_of_fetch_error w s e he, scrape_of_fetch_error w s e he]
  exact ⟨rfl, rfl, rfl, rfl⟩

theorem failed_poll_keeps_registry_witness :
    (scrape malformedBody seenState).1 ≠ none ∧
    seenState.target_states ≠ [] ∧
    (Collect malformedBody seenState).2.target_states = seenState.target_states ∧
    (Collect malformedBody seenState).2.target_count.value = 0 :=
  ⟨by decide, by decide,
    ((failed_poll_keeps_registry malformedBody seenState).2 (by decide)).2.1,
    ((failed_poll_keeps_registry malformedBody seenState).2 (by decide)).2.2.1⟩


/-- C3 (as stated) fails: the list holds the identity with health "up", yet a later element with
the same scrape URL and health "down" leaves the entry at 0. -/
theorem up_target_not_always_up :
    (respond [nodeTarget, nodeDown]).fetch = .ok (answer [nodeTarget, nodeDown]) ∧
    (∃ t ∈ (answer [nodeTarget, nodeDown]).Data.ActiveTargets,
      t.ScrapeURL = "http://a:9100/metrics" ∧ t.Health = "up") ∧
    (scrape (respond [nodeTarget, nodeDown]) init).1 = none ∧
    (mapGet (scrape (respond [nodeTarget, nodeDown]) init).2.target_states
      "http://a:9100/metrics").map Gauge.value = some target_down ∧
    ¬ ((mapGet (scrape (respond [nodeTarget, nodeDown]) init).2.target_states
      "http://a:9100/metrics").map Gauge.value = some target_up) := by
  refine ⟨rfl, ⟨nodeTarget, by decide, by decide, by decide⟩, by decide, by decide, by decide⟩

/-- C3 (amended): if the list holds a target with scrape URL `x` and health "up", and no later
element of the list with scrape URL `x` has health "down" or "unknown", then after a
successful poll the entry for `x` exists and its state is 1. -/
theorem up_target_is_up (w : World) (s : State) (pr : prometheusResponse) (x : String)
    (l₁ l₂ : List Target) (t : Target)
    (h : w.fetch = .ok pr)
    (hl : pr.Data.ActiveTargets = l₁ ++ t :: l₂)
    (hx : t.ScrapeURL = x) (hup : t.Health = "up")
    (hlater : ∀ u ∈ l₂, u.ScrapeURL = x → u.Health ≠ "down" ∧ u.Health ≠ "unknown") :
    (scrape w s).1 = none ∧
    ∃ g, mapGet (scrape w s).2.target_states x = some g ∧ g.value = target_up := by
  refine ⟨by rw [scrape_of_fetch_ok w s pr h], ?_⟩
  have hrt : recognised t.Health = true := by rw [hup]; decide
  have key : ∃ u, lastRecognised x pr.Data.ActiveTargets = some u ∧ u.Health = "up" := by
    rw [hl, lastRecognised_append, lastRecognised_cons]
    cases hc : lastRecognised x l₂ with
    | some u =>
      refine ⟨u, rfl, ?_⟩
      obtain ⟨hu, hux, hur⟩ := lastRecognised_some x l₂ u hc
      rcases (recognised_iff _).1 hur with h1 | h1 | h1
      · exact h1
      · exact absurd h1 (hlater u hu hux).1
      · exact absurd h1 (hlater u hu hux).2
    | none =>
      exact ⟨t, by simp [hx, hrt], hup⟩
  obtain ⟨u, hu, huh⟩ := key
  obtain ⟨g, hg, hv⟩ := value_of_lastRecognised w s pr h x u hu
  exact ⟨g, hg, by rw [hv, healthValue_eq, if_pos huh]⟩

theorem up_target_is_up_witness :
    (respond [nodeTarget]).fetch = .ok (answer [nodeTarget]) ∧
    (answer [nodeTarget]).Data.ActiveTargets = [] ++ nodeTarget :: [] ∧
    nodeTarget.ScrapeURL = "http://a:9100/metrics" ∧ nodeTarget.Health = "up" ∧
    ((scrape (respond [nodeTarget]) init).1 = none ∧
      ∃ g, mapGet (scrape (respond [nodeTarget]) init).2.target_states "http://a:9100/metrics"
        = some g ∧ g.value = target_up) ∧
    (scrape (respond [nodeTarget]) init).2.target_states.map (fun p => (p.1, p.2.value))
      = [("http://a:9100/metrics", 1)] :=
  ⟨rfl, rfl, rfl, rfl,
    up_target_is_up (respond [nodeTarget]) init (answer [nodeTarget]) "http://a:9100/metrics"
      [] [] nodeTarget rfl rfl rfl rfl (fun _ hu => absurd hu (List.not_mem_nil _)),
    by decide⟩

/-- C4: after a successful poll every entry that was in the registry before the poll and whose
identity is the scrape URL of no element of the list is still present, unchanged but for its
state, which is 2. -/
theorem absent_target_disappears (w : World) (s : State) (pr : prometheusResponse) (x : String)
    (g : Gauge)
    (h : w.fetch = .ok pr)
    (hg : mapGet s.target_states x = some g)
    (hx : ∀ t ∈ pr.Data.ActiveTargets, t.ScrapeURL ≠ x) :
    (scrape w s).1 = none ∧
    mapGet (scrape w s).2.target_states x = some (g.Set target_disappear) ∧
    (g.Set target_disappear).value = 2 := by
  refine ⟨by rw [scrape_of_fetch_ok w s pr h], ?_, rfl⟩
  rw [mapGet_scrape_of_no_recognised w s pr h x (fun t ht hc => hx t ht hc.1), hg]

theorem absent_target_disappears_witness :
    (respond [dbTarget]).fetch = .ok (answer [dbTarget]) ∧
    mapGet seenState.target_states "http://a:9100/metrics"
      = some ((stateGauge "prometheus_inception" nodeTarget).Set 1) ∧
    (∀ t ∈ (answer [dbTarget]).Data.ActiveTargets, t.ScrapeURL ≠ "http://a:9100/metrics") ∧
    mapGet (scrape (respond [dbTarget]) seenState).2.target_states "http://a:9100/metrics"
      = some (((stateGauge "prometheus_inception" nodeTarget).Set 1).Set target_disappear) :=
  ⟨rfl, by decide, by decide,
    (absent_target_disappears (respond [dbTarget]) seenState (answer [dbTarget])
      "http://a:9100/metrics" ((stateGauge "prometheus_inception" nodeTarget).Set 1)
      rfl (by decide) (by decide)).2.1⟩

/-- C9 (as stated) fails: an entry newly created for a target with an unrecognised health has
state 0, not 2. -/
theorem new_entry_unrecognised_not_disappeared :
    (respond [nodeOdd]).fetch = .ok (answer [nodeOdd]) ∧
    (∀ t ∈ (answer [nodeOdd]).Data.ActiveTargets, t.ScrapeURL = "http://a:9100/metrics" →
      ¬ (t.Health = "up" ∨ t.Health = "down" ∨ t.Health = "unknown")) ∧
    mapGet init.target_states "http://a:9100/metrics" = none ∧
    (scrape (respond [nodeOdd]) init).1 = none ∧
    (mapGet (scrape (respond [nodeOdd]) init).2.target_states
      "http://a:9100/metrics").map Gauge.value = some target_down ∧
    ¬ ((mapGet (scrape (respond [nodeOdd]) init).2.target_states
      "http://a:9100/metrics").map Gauge.value = some target_disappear) := by
  refine ⟨rfl, by decide, by decide, by decide, by decide, by decide⟩

/-- C9 (amended): if every occurrence of identity `x` in the list has a health other than "up",
"down" and "unknown", then after a successful poll an entry that `x` already had has state 2,
and an entry newly created for `x` by this poll has state 0. -/
theorem unrecognised_health_state (w : World) (s : State) (pr : prometheusResponse) (x : String)
    (h : w.fetch = .ok pr)
    (hx : ∀ t ∈ pr.Data.ActiveTargets, t.ScrapeURL = x →
      ¬ (t.Health = "up" ∨ t.Health = "down" ∨ t.Health = "unknown")) :
    (scrape w s).1 = none ∧
    (∀ g, mapGet s.target_states x = some g →
      mapGet (scrape w s).2.target_states x = some (g.Set target_disappear)) ∧
    (mapGet s.target_states x = none → (∃ t ∈ pr.Data.ActiveTargets, t.ScrapeURL = x) →
      ∃ g, mapGet (scrape w s).2.target_states x = some g ∧ g.value = target_down) := by
  have hno : ∀ t ∈ pr.Data.ActiveTargets, ¬ (t.ScrapeURL = x ∧ recognised t.Health = true) :=
    fun t ht hc => hx t ht hc.1 ((recognised_iff _).1 hc.2)
  have hget := mapGet_scrape_of_no_recognised w s pr h x hno
  refine ⟨by rw [scrape_of_fetch_ok w s pr h], ?_, ?_⟩
  · intro g hg
    rw [hget, hg]
  · rintro hnone ⟨t, ht, htx⟩
    obtain ⟨u, hu⟩ := firstWith_isSome x _ t ht htx
    rw [hget, hnone, hu]
    exact ⟨_, rfl, rfl⟩

theorem unrecognised_health_state_witness :
    (respond [nodeOdd, dbTarget]).fetch = .ok (answer [nodeOdd, dbTarget]) ∧
    (∀ t ∈ (answer [nodeOdd, dbTarget]).Data.ActiveTargets,
      t.ScrapeURL = "http://a:9100/metrics" →
        ¬ (t.Health = "up" ∨ t.Health = "down" ∨ t.Health = "unknown")) ∧
    (mapGet (scrape (respond [nodeOdd, dbTarget]) seenState).2.target_states
      "http://a:9100/metrics").map Gauge.value = some 2 ∧
    (mapGet (scrape (respond [nodeOdd, dbTarget]) init).2.target_states
      "http://a:9100/metrics").map Gauge.value = some 0 :=
  ⟨rfl, by decide,
    by
      rw [(unrecognised_health_state (respond [nodeOdd, dbTarget]) seenState
        (answer [nodeOdd, dbTarget]) "http://a:9100/metrics" rfl (by decide)).2.1
          ((stateGauge "prometheus_inception" nodeTarget).Set 1) (by decide)]
      rfl,
    by decide⟩

/-- C10: if `t` is the last element of the list with scrape URL `x` and a recognised health, then
after a successful poll the state of entry `x` is 1 if the health of `t` is "up" and 0 if it is
"down" or "unknown", whatever stands before `t` and whatever unrecognised occurrences of `x`
follow it; every recognised occurrence is counted in the aggregate count. -/
theorem last_recognised_occurrence_decides (w : World) (s : State) (pr : prometheusResponse)
    (x : String) (l₁ l₂ : List Target) (t : Target)
    (h : w.fetch = .ok pr)
    (hl : pr.Data.ActiveTargets = l₁ ++ t :: l₂)
    (hx : t.ScrapeURL = x)
    (hr : t.Health = "up" ∨ t.Health = "down" ∨ t.Health = "unknown")
    (hlast : ∀ u ∈ l₂, u.ScrapeURL = x →
      ¬ (u.Health = "up" ∨ u.Health = "down" ∨ u.Health = "unknown")) :
    (scrape w s).1 = none ∧
    (∃ g, mapGet (scrape w s).2.target_states x = some g ∧
      g.value = if t.Health = "up" then target_up else target_down) ∧
    (scrape w s).2.target_count.value =
      (pr.Data.ActiveTargets.filter (fun u =>
        decide (u.Health = "up" ∨ u.Health = "down" ∨ u.Health = "unknown"))).length := by
  refine ⟨by rw [scrape_of_fetch_ok w s pr h], ?_, ?_⟩
  · have hrt : recognised t.Health = true := (recognised_iff _).2 hr
    have hnone : lastRecognised x l₂ = none :=
      lastRecognised_eq_none x l₂ (fun u hu hc => hlast u hu hc.1 ((recognised_iff _).1 hc.2))
    have key : lastRecognised x pr.Data.ActiveTargets = some t := by
      rw [hl, lastRecognised_append, lastRecognised_cons, hnone]
      simp [hx, hrt]
    obtain ⟨g, hg, hv⟩ := value_of_lastRecognised w s pr h x t key
    exact ⟨g, hg, by rw [hv, healthValue_eq]⟩
  · rw [count_scrape w s pr h, count_eq_filter_length]

theorem last_recognised_occurrence_decides_witness :
    (respond [nodeTarget, dbTarget, nodeDown, nodeOdd]).fetch
      = .ok (answer [nodeTarget, dbTarget, nodeDown, nodeOdd]) ∧
    (answer [nodeTarget, dbTarget, nodeDown, nodeOdd]).Data.ActiveTargets
      = [nodeTarget, dbTarget] ++ nodeDown :: [nodeOdd] ∧
    (mapGet (scrape (respond [nodeTarget, dbTarget, nodeDown, nodeOdd]) seenState).2.target_states
      "http://a:9100/metrics").map Gauge.value = some 0 ∧
    (scrape (respond [nodeTarget, dbTarget, nodeDown, nodeOdd]) seenState).2.target_count.value
      = 3 := by
  have hthm := last_recognised_occurrence_decides
    (respond [nodeTarget, dbTarget, nodeDown, nodeOdd]) seenState
    (answer [nodeTarget, dbTarget, nodeDown, nodeOdd]) "http://a:9100/metrics"
    [nodeTarget, dbTarget] [nodeOdd] nodeDown rfl rfl rfl (by decide) (by decide)
  obtain ⟨_, ⟨g, hg, hv⟩, hc⟩ := hthm
  refine ⟨rfl, rfl, ?_, hc.trans (by decide)⟩
  rw [hg]
  exact congrArg some hv


/-! ## Entries of the registry: membership, keys, value range -/

theorem mem_ensured (ns : String) (m : List (String × Gauge)) (t : Target) (p : String × Gauge)
    (hp : p ∈ ensured ns m t) : p ∈ m ∨ p = (t.ScrapeURL, stateGauge ns t) := by
  unfold ensured at hp
  cases hm : mapGet m t.ScrapeURL with
  | some g =>
    rw [hm] at hp
    exact Or.inl hp
  | none =>
    rw [hm] at hp
    rcases List.mem_append.1 hp with h | h
    · exact Or.inl h
    · exact Or.inr (List.mem_singleton.1 h)

theorem mem_mapSet (m : List (String × Gauge)) (key : String) (v : Nat) (p : String × Gauge)
    (hp : p ∈ mapSet m key v) :
    ∃ q ∈ m, p = (q.1, if q.1 = key then q.2.Set v else q.2) := by
  unfold mapSet at hp
  obtain ⟨q, hq, rfl⟩ := List.mem_map.1 hp
  exact ⟨q, hq, rfl⟩

theorem mapGet_eq_none_iff (m : List (String × Gauge)) (x : String) :
    mapGet m x = none ↔ x ∉ m.map Prod.fst := by
  induction m with
  | nil => simp [mapGet]
  | cons p m ih =>
    obtain ⟨k, g⟩ := p
    by_cases h : k = x
    · simp [mapGet, h]
    · have h2 : ¬ x = k := fun e => h e.symm
      simp [mapGet, h, h2, ih]

theorem keys_mapSet (m : List (String × Gauge)) (key : String) (v : Nat) :
    (mapSet m key v).map Prod.fst = m.map Prod.fst := by
  unfold mapSet
  rw [List.map_map]
  rfl

theorem keys_scrapeTarget_nodup (ns : String) (acc : List (String × Gauge) × Nat) (t : Target)
    (h : (acc.1.map Prod.fst).Nodup) : ((scrapeTarget ns acc t).1.map Prod.fst).Nodup := by
  have he : ((ensured ns acc.1 t).map Prod.fst).Nodup := by
    unfold ensured
    cases hm : mapGet acc.1 t.ScrapeURL with
    | some g => exact h
    | none =>
      have hnot := (mapGet_eq_none_iff _ _).1 hm
      simp only [List.map_append, List.map_cons, List.map_nil]
      exact List.Nodup.append h (List.nodup_singleton _)
        (List.disjoint_singleton.2 hnot)
  rw [scrapeTarget_fst]
  cases recognised t.Health
  · simpa using he
  · simp only [if_true, keys_mapSet]
    exact he

theorem keys_foldl_nodup (ns : String) (l : List Target) (acc : List (String × Gauge) × Nat)
    (h : (acc.1.map Prod.fst).Nodup) :
    ((l.foldl (scrapeTarget ns) acc).1.map Prod.fst).Nodup := by
  induction l generalizing acc with
  | nil => exact h
  | cons t l ih => exact ih _ (keys_scrapeTarget_nodup ns acc t h)

theorem values_scrapeTarget (ns : String) (acc : List (String × Gauge) × Nat) (t : Target)
    (h : ∀ p ∈ acc.1, p.2.value ≤ 2) : ∀ p ∈ (scrapeTarget ns acc t).1, p.2.value ≤ 2 := by
  have he : ∀ p ∈ ensured ns acc.1 t, p.2.value ≤ 2 := by
    intro p hp
    rcases mem_ensured ns acc.1 t p hp with h1 | h1
    · exact h p h1
    · rw [h1]
      exact Nat.zero_le 2
  rw [scrapeTarget_fst]
  intro p hp
  cases hr : recognised t.Health
  · rw [hr] at hp
    exact he p hp
  · rw [hr] at hp
    obtain ⟨q, hq, rfl⟩ := mem_mapSet _ _ _ p hp
    by_cases hk : q.1 = t.ScrapeURL
    · simp only [hk, if_true, Set_value]
      unfold healthValue target_up target_down
      split <;> omega
    · simp only [hk, if_false]
      exact he q hq

theorem values_foldl (ns : String) (l : List Target) (acc : List (String × Gauge) × Nat)
    (h : ∀ p ∈ acc.1, p.2.value ≤ 2) :
    ∀ p ∈ (l.foldl (scrapeTarget ns) acc).1, p.2.value ≤ 2 := by
  induction l generalizing acc with
  | nil => exact h
  | cons t l ih => exact ih _ (values_scrapeTarget ns acc t h)

/-- Whatever the registry held before, after one collect that succeeds every state value is at
most 2; a collect that fails keeps the registry. -/
theorem values_Collect (w : World) (s : State) (h : ∀ p ∈ s.target_states, p.2.value ≤ 2) :
    ∀ p ∈ (Collect w s).2.target_states, p.2.value ≤ 2 := by
  cases hf : w.fetch with
  | error e =>
    rw [Collect_of_fetch_error w s e hf]
    exact h
  | ok pr =>
    rw [Collect_of_fetch_ok w s pr hf, scrape_of_fetch_ok w s pr hf]
    apply values_foldl
    intro p hp
    obtain ⟨q, _, rfl⟩ := List.mem_map.1 hp
    exact Nat.le_refl 2

theorem values_collects (ws : List World) (s : State)
    (h : ∀ p ∈ s.target_states, p.2.value ≤ 2) :
    ∀ p ∈ (collects ws s).target_states, p.2.value ≤ 2 := by
  induction ws generalizing s with
  | nil => exact h
  | cons w ws ih => exact ih _ (values_Collect w s h)

/-- C5: a collect whose poll fails emits exactly one metric, the aggregate count with value 0,
whatever the registry holds; a collect whose poll succeeds emits the metric of every entry of the
updated registry exactly once (in some order), then the aggregate count as last element, so the
emitted length is the registry size plus one. -/
theorem Collect_emits (w : World) (s : State) :
    ((scrape w s).1 ≠ none →
      (Collect w s).1 = [s.target_count.Set 0] ∧ (Collect w s).2.target_count.value = 0) ∧
    ((scrape w s).1 = none →
      (Collect w s).2 = (scrape w s).2 ∧
      (∃ ms, (Collect w s).1 = ms ++ [(Collect w s).2.target_count] ∧
        List.Perm ms ((Collect w s).2.target_states.map Prod.snd)) ∧
      (Collect w s).1.length = (Collect w s).2.target_states.length + 1 ∧
      ((s.target_states.map Prod.fst).Nodup →
        ((Collect w s).2.target_states.map Prod.fst).Nodup)) := by
  cases hf : w.fetch with
  | error e =>
    rw [Collect_of_fetch_error w s e hf, scrape_of_fetch_error w s e hf]
    exact ⟨fun _ => ⟨rfl, rfl⟩, fun hc => by simp at hc⟩
  | ok pr =>
    rw [Collect_of_fetch_ok w s pr hf]
    refine ⟨fun hc => ?_,
      fun _ => ⟨rfl, ⟨_, rfl, w.rangeOrder.perm _⟩, ?_, fun hn => ?_⟩⟩
    · rw [scrape_of_fetch_ok w s pr hf] at hc
      exact absurd rfl hc
    · simp only [List.length_append, List.length_singleton,
        (w.rangeOrder.perm _).length_eq, List.length_map]
    · rw [scrape_of_fetch_ok w s pr hf]
      apply keys_foldl_nodup
      simpa [List.map_map] using hn

theorem Collect_emits_witness :
    ((scrape upstreamDown seenState).1 ≠ none ∧ seenState.target_states.length = 1 ∧
      (Collect upstreamDown seenState).1 = [seenState.target_count.Set 0]) ∧
    ((scrape (respond [dbTarget]) seenState).1 = none ∧
      (Collect (respond [dbTarget]) seenState).1.length = 3 ∧
      (Collect (respond [dbTarget]) seenState).1.map Gauge.value = [2, 0, 1]) :=
  ⟨⟨by decide, by decide, ((Collect_emits upstreamDown seenState).1 (by decide)).1⟩,
    ⟨by decide,
      (((Collect_emits (respond [dbTarget]) seenState).2 (by decide)).2.2.1).trans (by decide),
      by decide⟩⟩

/-- C7: starting from an empty registry, after every sequence of collects, successful or failed,
with arbitrary target lists and health strings, every registry entry has state 0, 1 or 2. -/
theorem state_values_in_range (ws : List World) (s : State) (h : s.target_states = []) :
    ∀ p ∈ (collects ws s).target_states,
      p.2.value = target_down ∨ p.2.value = target_up ∨ p.2.value = target_disappear := by
  intro p hp
  have hle := values_collects ws s (by rw [h]; intro q hq; cases hq) p hp
  unfold target_down target_up target_disappear
  omega

theorem state_values_in_range_witness :
    init.target_states = [] ∧
    (collects [respond [nodeTarget, dbTarget, cacheTarget], malformedBody,
      respond [nodeTarget, dbTarget, nodeOdd]] init).target_states.map (fun p => p.2.value)
        = [1, 0, 2] ∧
    ∀ p ∈ (collects [respond [nodeTarget, dbTarget, cacheTarget], malformedBody,
        respond [nodeTarget, dbTarget, nodeOdd]] init).target_states,
      p.2.value = target_down ∨ p.2.value = target_up ∨ p.2.value = target_disappear :=
  ⟨rfl, by decide,
    state_values_in_range [respond [nodeTarget, dbTarget, cacheTarget], malformedBody,
      respond [nodeTarget, dbTarget, nodeOdd]] init rfl⟩

/-! ## Labels across collects -/

theorem firstWith_split (x : String) (l : List Target) (t : Target) (h : firstWith x l = some t) :
    ∃ l₁ l₂, l = l₁ ++ t :: l₂ ∧ (∀ u ∈ l₁, u.ScrapeURL ≠ x) ∧ t.ScrapeURL = x := by
  induction l with
  | nil => simp [firstWith] at h
  | cons a l ih =>
    rw [firstWith_cons] at h
    by_cases ha : a.ScrapeURL = x
    · rw [if_pos ha] at h
      cases h
      exact ⟨[], l, rfl, fun u hu => absurd hu (List.not_mem_nil _), ha⟩
    · rw [if_neg ha] at h
      obtain ⟨l₁, l₂, hl, hne, hx⟩ := ih h
      refine ⟨a :: l₁, l₂, by rw [hl]; rfl, ?_, hx⟩
      intro u hu
      rcases List.mem_cons.1 hu with h1 | h1
      · rw [h1]; exact ha
      · exact hne u h1

theorem Collect_namespace (w : World) (s : State) :
    (Collect w s).2.metrics_namespace = s.metrics_namespace := by
  cases hf : w.fetch with
  | error e => rw [Collect_of_fetch_error w s e hf]
  | ok pr => rw [Collect_of_fetch_ok w s pr hf, scrape_of_fetch_ok w s pr hf]

/-- One collect, seen through the options of a gauge (its value set aside): an entry keeps its
gauge, and a new entry is built from the first target of this poll with that scrape URL. -/
theorem mapGet_Collect_opts (w : World) (s : State) (x : String) :
    (mapGet (Collect w s).2.target_states x).map (fun g => g.Set 0) =
      (baseGauge s.metrics_namespace s.target_states (targetsOf w) x).map (fun g => g.Set 0) := by
  unfold targetsOf
  cases hf : w.fetch with
  | error e =>
    rw [Collect_of_fetch_error w s e hf]
    unfold baseGauge
    cases mapGet s.target_states x <;> simp [firstWith]
  | ok pr =>
    rw [Collect_of_fetch_ok w s pr hf]
    simp only
    rw [mapGet_scrape w s pr hf]
    unfold baseGauge decided
    rw [mapGet_reset]
    cases mapGet s.target_states x <;> cases firstWith x pr.Data.ActiveTargets <;>
      cases lastRecognised x pr.Data.ActiveTargets <;> simp [Set_Set]

theorem mapGet_collects_opts (ws : List World) (s : State) (x : String) :
    (mapGet (collects ws s).target_states x).map (fun g => g.Set 0) =
      (baseGauge s.metrics_namespace s.target_states (processed ws) x).map (fun g => g.Set 0) := by
  induction ws generalizing s with
  | nil =>
    have hnil : collects [] s = s := rfl
    rw [hnil]
    unfold baseGauge
    cases mapGet s.target_states x <;> simp [processed, firstWith]
  | cons w ws ih =>
    have hstep : collects (w :: ws) s = collects ws (Collect w s).2 := rfl
    rw [hstep, ih, Collect_namespace]
    have hone := mapGet_Collect_opts w s x
    unfold baseGauge at hone ⊢
    simp only [processed, firstWith_append]
    cases h0 : mapGet s.target_states x with
    | some g =>
      rw [h0] at hone
      cases h1 : mapGet (Collect w s).2.target_states x with
      | some g1 =>
        rw [h1] at hone
        simpa using hone
      | none =>
        rw [h1] at hone
        simp at hone
    | none =>
      rw [h0] at hone
      cases h2 : firstWith x (targetsOf w) with
      | some t =>
        rw [h2] at hone
        cases h1 : mapGet (Collect w s).2.target_states x with
        | some g1 =>
          rw [h1] at hone
          simpa using hone
        | none =>
          rw [h1] at hone
          simp at hone
      | none =>
        rw [h2] at hone
        cases h1 : mapGet (Collect w s).2.target_states x with
        | some g1 =>
          rw [h1] at hone
          simp at hone
        | none => rfl

theorem eq_Set_of_opts_eq (g g' : Gauge) (h : g'.Set 0 = g.Set 0) : g' = g.Set g'.value := by
  cases g
  cases g'
  simp only [Gauge.Set, Gauge.mk.injEq] at h ⊢
  simp [h.1, h.2.1, h.2.2.1, h.2.2.2.1]

/-- C6: starting from an empty registry, an entry for identity `x` that exists after a sequence of
collects carries job_name = the job label of the first target ever processed with scrape URL `x`
and scrape_url = `x`; after every further sequence of collects, successful or failed, the entry
is still present and is the same gauge but for its value. -/
theorem labels_first_write_wins (ws ws' : List World) (s : State) (x : String) (g : Gauge)
    (h : s.target_states = [])
    (hg : mapGet (collects ws s).target_states x = some g) :
    (∃ l₁ t l₂, processed ws = l₁ ++ t :: l₂ ∧ (∀ u ∈ l₁, u.ScrapeURL ≠ x) ∧ t.ScrapeURL = x ∧
      g.ConstLabels =
        [("job_name", Labels.index t.DiscoveredLabels "job"), ("scrape_url", x)]) ∧
    (∃ v, mapGet (collects (ws ++ ws') s).target_states x = some (g.Set v)) := by
  constructor
  · have hseq := mapGet_collects_opts ws s x
    rw [hg] at hseq
    unfold baseGauge at hseq
    rw [h] at hseq
    simp only [mapGet] at hseq
    cases hf : firstWith x (processed ws) with
    | none =>
      rw [hf] at hseq
      simp at hseq
    | some t =>
      rw [hf] at hseq
      simp only [Option.map_some', Option.some.injEq] at hseq
      obtain ⟨l₁, l₂, hl, hne, hx⟩ := firstWith_split x _ t hf
      refine ⟨l₁, t, l₂, hl, hne, hx, ?_⟩
      have := congrArg Gauge.ConstLabels hseq
      simp only [Gauge.Set, stateGauge, newGauge] at this
      rw [this, hx]
  · have happ : collects (ws ++ ws') s = collects ws' (collects ws s) := by
      unfold collects
      rw [List.foldl_append]
    have hseq := mapGet_collects_opts ws' (collects ws s) x
    rw [← happ] at hseq
    unfold baseGauge at hseq
    rw [hg] at hseq
    cases h1 : mapGet (collects (ws ++ ws') s).target_states x with
    | none =>
      rw [h1] at hseq
      simp at hseq
    | some g' =>
      rw [h1] at hseq
      simp only [Option.map_some', Option.some.injEq] at hseq
      exact ⟨g'.value, congrArg some (eq_Set_of_opts_eq g g' hseq)⟩

theorem labels_first_write_wins_witness :
    init.target_states = [] ∧
    mapGet (collects [upstreamDown, respond [dbTarget, nodeTarget]] init).target_states
      "http://a:9100/metrics" = some ((stateGauge "prometheus_inception" nodeTarget).Set 1) ∧
    (∃ v, mapGet (collects ([upstreamDown, respond [dbTarget, nodeTarget]] ++
        [respond [nodeDown], malformedBody, respond []]) init).target_states
      "http://a:9100/metrics" = some (((stateGauge "prometheus_inception" nodeTarget).Set 1).Set v)) ∧
    (mapGet (collects ([upstreamDown, respond [dbTarget, nodeTarget]] ++
        [respond [nodeDown], malformedBody, respond []]) init).target_states
      "http://a:9100/metrics").map Gauge.ConstLabels
        = some [("job_name", "node"), ("scrape_url", "http://a:9100/metrics")] :=
  ⟨rfl, by decide,
    (labels_first_write_wins [upstreamDown, respond [dbTarget, nodeTarget]]
      [respond [nodeDown], malformedBody, respond []] init "http://a:9100/metrics"
      ((stateGauge "prometheus_inception" nodeTarget).Set 1) rfl (by decide)).2,
    by decide⟩


/-! ## Polling the same all-up list twice -/

/-- After the loop over an all-up list, an entry whose key is a scrape URL of the list has value
1, and any other entry was in the registry before the loop. -/
theorem entries_foldl_up (ns : String) (l : List Target) (acc : List (String × Gauge) × Nat)
    (hup : ∀ t ∈ l, t.Health = "up") :
    ∀ p ∈ (l.foldl (scrapeTarget ns) acc).1,
      (p.1 ∈ l.map Target.ScrapeURL → p.2.value = target_up) ∧
      (p.1 ∉ l.map Target.ScrapeURL → p ∈ acc.1) := by
  induction l generalizing acc with
  | nil =>
    intro p hp
    exact ⟨fun h => absurd h (List.not_mem_nil _), fun _ => hp⟩
  | cons t l ih =>
    intro p hp
    have hrec := ih (scrapeTarget ns acc t) (fun u hu => hup u (List.mem_cons_of_mem _ hu)) p hp
    have ht : recognised t.Health = true := by
      rw [hup t (List.mem_cons_self _ _)]; decide
    have hv : healthValue t.Health = target_up := by
      rw [hup t (List.mem_cons_self _ _)]; rfl
    by_cases hin : p.1 ∈ l.map Target.ScrapeURL
    · exact ⟨fun _ => hrec.1 hin, fun hnot => absurd (List.mem_cons_of_mem _ hin) hnot⟩
    · have hp' := hrec.2 hin
      rw [scrapeTarget_fst, ht, if_pos rfl, hv] at hp'
      obtain ⟨q, hq, rfl⟩ := mem_mapSet _ _ _ p hp'
      by_cases hk : q.1 = t.ScrapeURL
      · refine ⟨fun _ => by simp only [hk, if_true, Set_value], fun hnot => ?_⟩
        exact absurd (by simp [hk]) hnot
      · refine ⟨fun hmem => ?_, fun _ => ?_⟩
        · rcases List.mem_cons.1 hmem with h1 | h1
          · exact absurd h1 hk
          · exact absurd h1 hin
        · simp only [hk, if_false]
          rcases mem_ensured ns acc.1 t q hq with h1 | h1
          · exact h1
          · exact absurd (congrArg Prod.fst h1) hk

/-- The loop over an all-up list whose scrape URLs all have an entry only sets values. -/
theorem foldl_up_of_present (ns : String) (l : List Target) (acc : List (String × Gauge) × Nat)
    (hup : ∀ t ∈ l, t.Health = "up")
    (hpres : ∀ t ∈ l, mapGet acc.1 t.ScrapeURL ≠ none) :
    (l.foldl (scrapeTarget ns) acc).1 =
      acc.1.map (fun p =>
        (p.1, if p.1 ∈ l.map Target.ScrapeURL then p.2.Set target_up else p.2)) := by
  induction l generalizing acc with
  | nil => simp
  | cons t l ih =>
    have ht : recognised t.Health = true := by
      rw [hup t (List.mem_cons_self _ _)]; decide
    have hv : healthValue t.Health = target_up := by
      rw [hup t (List.mem_cons_self _ _)]; rfl
    have hens : ensured ns acc.1 t = acc.1 := by
      unfold ensured
      cases hm : mapGet acc.1 t.ScrapeURL with
      | some g => rfl
      | none => exact absurd hm (hpres t (List.mem_cons_self _ _))
    have hstep : (scrapeTarget ns acc t).1 = mapSet acc.1 t.ScrapeURL target_up := by
      rw [scrapeTarget_fst, ht, if_pos rfl, hv, hens]
    have hpres' : ∀ u ∈ l, mapGet (scrapeTarget ns acc t).1 u.ScrapeURL ≠ none := by
      intro u hu
      rw [hstep, mapGet_mapSet]
      have := hpres u (List.mem_cons_of_mem _ hu)
      cases hm : mapGet acc.1 u.ScrapeURL with
      | none => exact absurd hm this
      | some g => by_cases hk : u.ScrapeURL = t.ScrapeURL <;> simp [hk]
    rw [List.foldl_cons, ih _ (fun u hu => hup u (List.mem_cons_of_mem _ hu)) hpres', hstep]
    unfold mapSet
    rw [List.map_map]
    apply List.map_congr_left
    intro p _
    by_cases hk : p.1 = t.ScrapeURL
    · by_cases hin : p.1 ∈ l.map Target.ScrapeURL
      · simp [hk, Set_Set]
      · simp [hk, Set_Set]
    · by_cases hin : p.1 ∈ l.map Target.ScrapeURL
      · have hin' : ∃ a ∈ l, a.ScrapeURL = p.1 := List.mem_map.1 hin
        simp [hk, hin']
      · have hin' : ¬ ∃ a ∈ l, a.ScrapeURL = p.1 := fun h => hin (List.mem_map.2 h)
        simp [hk, hin']

theorem Set_self (g : Gauge) (v : Nat) (h : g.value = v) : g.Set v = g := by
  cases g
  simp only [Gauge.Set] at h ⊢
  rw [h]

/-- The registry after a successful poll on an all-up list is a fixed point of that poll. -/
theorem foldl_up_twice (ns : String) (l : List Target) (m : List (String × Gauge)) (c c' : Nat)
    (hup : ∀ t ∈ l, t.Health = "up") :
    (l.foldl (scrapeTarget ns)
      ((l.foldl (scrapeTarget ns)
        (m.map (fun p => (p.1, p.2.Set target_disappear)), c)).1.map
          (fun p => (p.1, p.2.Set target_disappear)), c')).1 =
      (l.foldl (scrapeTarget ns) (m.map (fun p => (p.1, p.2.Set target_disappear)), c)).1 := by
  have hpres : ∀ t ∈ l,
      mapGet ((l.foldl (scrapeTarget ns)
        (m.map (fun p => (p.1, p.2.Set target_disappear)), c)).1.map
          (fun p => (p.1, p.2.Set target_disappear)), c').1 t.ScrapeURL ≠ none := by
    intro t ht
    simp only
    rw [mapGet_reset, mapGet_foldl]
    obtain ⟨u, hu⟩ := firstWith_isSome t.ScrapeURL l t ht rfl
    unfold baseGauge
    rw [hu]
    cases mapGet (m.map (fun p => (p.1, p.2.Set target_disappear)), c).1 t.ScrapeURL <;> simp
  rw [foldl_up_of_present ns l _ hup hpres]
  simp only
  rw [List.map_map]
  conv_rhs => rw [← List.map_id (l.foldl (scrapeTarget ns)
    (m.map (fun p => (p.1, p.2.Set target_disappear)), c)).1]
  apply List.map_congr_left
  intro p hp
  obtain ⟨h1, h2⟩ := entries_foldl_up ns l _ hup p hp
  by_cases hin : p.1 ∈ l.map Target.ScrapeURL
  · have hin' : ∃ a ∈ l, a.ScrapeURL = p.1 := List.mem_map.1 hin
    simp [hin', Set_Set, Set_self p.2 target_up (h1 hin)]
  · have hin' : ¬ ∃ a ∈ l, a.ScrapeURL = p.1 := fun h => hin (List.mem_map.2 h)
    have hmem := h2 hin
    simp only at hmem
    obtain ⟨q, _, rfl⟩ := List.mem_map.1 hmem
    simp [hin', Set_Set]

theorem Collect_out_of_fetch_ok (w : World) (s : State) (pr : prometheusResponse)
    (h : w.fetch = .ok pr) :
    (Collect w s).1 =
      w.rangeOrder.visit ((Collect w s).2.target_states.map Prod.snd) ++
        [(Collect w s).2.target_count] := by
  rw [Collect_of_fetch_ok w s pr h]

/-- C8: two consecutive successful polls whose decoded active-target lists are the same list,
every target of which is "up", leave the same registry and the same aggregate count after the
second poll as after the first, and the two collects emit the same metrics: each emits its
per-target metrics followed by the same aggregate count, and the per-target metrics of the second
are those of the first in some order. -/
theorem poll_twice_all_up (w₁ w₂ : World) (s : State) (pr₁ pr₂ : prometheusResponse)
    (h₁ : w₁.fetch = .ok pr₁) (h₂ : w₂.fetch = .ok pr₂)
    (hsame : pr₂.Data.ActiveTargets = pr₁.Data.ActiveTargets)
    (hup : ∀ t ∈ pr₁.Data.ActiveTargets, t.Health = "up") :
    (scrape w₁ s).1 = none ∧ (scrape w₂ (Collect w₁ s).2).1 = none ∧
    (Collect w₂ (Collect w₁ s).2).2.target_states = (Collect w₁ s).2.target_states ∧
    (Collect w₂ (Collect w₁ s).2).2.target_count = (Collect w₁ s).2.target_count ∧
    (∃ ms₁ ms₂,
      (Collect w₁ s).1 = ms₁ ++ [(Collect w₁ s).2.target_count] ∧
      (Collect w₂ (Collect w₁ s).2).1 = ms₂ ++ [(Collect w₁ s).2.target_count] ∧
      List.Perm ms₂ ms₁) ∧
    List.Perm (Collect w₂ (Collect w₁ s).2).1 (Collect w₁ s).1 := by
  have hstate : (Collect w₂ (Collect w₁ s).2).2 = (Collect w₁ s).2 := by
    rw [Collect_of_fetch_ok w₂ _ pr₂ h₂, Collect_of_fetch_ok w₁ s pr₁ h₁]
    simp only
    rw [scrape_of_fetch_ok w₂ _ pr₂ h₂, scrape_of_fetch_ok w₁ s pr₁ h₁, hsame]
    simp only [foldl_up_twice _ _ _ _ _ hup, snd_foldl, Set_Set]
  have hperm : List.Perm
      (w₂.rangeOrder.visit ((Collect w₁ s).2.target_states.map Prod.snd))
      (w₁.rangeOrder.visit ((Collect w₁ s).2.target_states.map Prod.snd)) :=
    (w₂.rangeOrder.perm _).trans (w₁.rangeOrder.perm _).symm
  have hout₁ := Collect_out_of_fetch_ok w₁ s pr₁ h₁
  have hout₂ := Collect_out_of_fetch_ok w₂ (Collect w₁ s).2 pr₂ h₂
  rw [hstate] at hout₂
  refine ⟨by rw [scrape_of_fetch_ok w₁ s pr₁ h₁], by rw [scrape_of_fetch_ok w₂ _ pr₂ h₂], ?_, ?_,
    ⟨_, _, hout₁, hout₂, hperm⟩, ?_⟩
  · rw [hstate]
  · rw [hstate]
  · rw [hout₁, hout₂]
    exact List.Perm.append_right _ hperm

theorem poll_twice_all_up_witness :
    (respond [nodeTarget, nodeTarget]).fetch = .ok (answer [nodeTarget, nodeTarget]) ∧
    (respondAgain [nodeTarget, nodeTarget]).fetch
      = .ok { Status := "success", Data := { ActiveTargets := [nodeTarget, nodeTarget] },
              ErrorType := "", Error := "slow discovery" } ∧
    (∀ t ∈ (answer [nodeTarget, nodeTarget]).Data.ActiveTargets, t.Health = "up") ∧
    List.Perm
      (Collect (respondAgain [nodeTarget, nodeTarget])
        (Collect (respond [nodeTarget, nodeTarget]) (Collect (respond [dbTarget]) init).2).2).1
      (Collect (respond [nodeTarget, nodeTarget]) (Collect (respond [dbTarget]) init).2).1 ∧
    (Collect (respond [nodeTarget, nodeTarget])
        (Collect (respond [dbTarget]) init).2).1.map Gauge.value = [2, 1, 2] ∧
    (Collect (respondAgain [nodeTarget, nodeTarget])
        (Collect (respond [nodeTarget, nodeTarget])
          (Collect (respond [dbTarget]) init).2).2).1.map Gauge.value = [1, 2, 2] :=
  ⟨rfl, rfl, by decide,
    (poll_twice_all_up (respond [nodeTarget, nodeTarget]) (respondAgain [nodeTarget, nodeTarget])
      (Collect (respond [dbTarget]) init).2 (answer [nodeTarget, nodeTarget])
      { Status := "success", Data := { ActiveTargets := [nodeTarget, nodeTarget] },
        ErrorType := "", Error := "slow discovery" }
      rfl rfl rfl (by decide)).2.2.2.2.2,
    by decide, by decide⟩

end PrometheusInceptionExporter
